import Mathlib

/-!
Verification of the state-reconciliation core of an F5 BIG-IP AFM
address-list module (`library/bigip_security_address_list.py`).

The Python source is shallowly embedded below: each `@property` of the
module's parameter classes becomes a Lean function over explicit inputs,
exceptions become `Except`/error constructors, and the reconciliation
lifecycle becomes a pure function that also records the trace of device
calls.  Strings are modelled as Lean `String`s (lists of characters,
compared by code point, exactly as Python compares `str`).  `netaddr`
IP parsing/formatting is modelled for the standard dotted-quad IPv4 and
hex-group IPv6 forms.
-/

/-! ## Python string primitives -/

/-- Characters treated as whitespace by Python's `str.strip()`. -/
def isPySpace (c : Char) : Bool :=
  c = ' ' || c = '\t' || c = '\n' || c = '\r' || c = '\x0b' || c = '\x0c'

/-- Python `str.strip()`: drop leading and trailing whitespace. -/
def pyStrip (s : String) : String :=
  ⟨((s.data.dropWhile isPySpace).reverse.dropWhile isPySpace).reverse⟩

/-- Python `str.rstrip(".")`: drop every trailing dot. -/
def pyRstripDots (s : String) : String :=
  ⟨(s.data.reverse.dropWhile (· = '.')).reverse⟩

/-- Python `str.split(sep)` on a single-character separator, on raw
character lists.  `split` of an empty string is `[[]]`, and every
occurrence of the separator produces a boundary. -/
def pySplitCh (sep : Char) : List Char → List (List Char)
  | [] => [[]]
  | c :: rest =>
    if c = sep then [] :: pySplitCh sep rest
    else
      match pySplitCh sep rest with
      | [] => [[c]]
      | h :: t => (c :: h) :: t

/-- Python `str.split(sep)` for `String`s. -/
def pySplit (sep : Char) (s : String) : List String :=
  (pySplitCh sep s.data).map (fun l => ⟨l⟩)

/-- Python `sep in s` membership test for a single character. -/
def pyContains (s : String) (sep : Char) : Bool :=
  s.data.contains sep

/-! ## Python string ordering and `sorted`

Python compares strings lexicographically by code point; `sorted` returns
the unique ≤-sorted permutation (all sorts agree because the order is
total and antisymmetric).  We use an insertion sort so that terms reduce
in the kernel. -/

/-- Code-point lexicographic `<=` on character lists (Python `str` order). -/
def lexLe : List Char → List Char → Bool
  | [], _ => true
  | _ :: _, [] => false
  | a :: as, b :: bs =>
    if a.toNat < b.toNat then true
    else if b.toNat < a.toNat then false
    else lexLe as bs

/-- Python `<=` on strings. -/
def strLe (a b : String) : Bool := lexLe a.data b.data

/-- Insert into a ≤-sorted list of strings. -/
def pyInsert (x : String) : List String → List String
  | [] => [x]
  | y :: ys => if strLe x y then x :: y :: ys else y :: pyInsert x ys

/-- Python `sorted` on lists of strings (insertion sort). -/
def pySorted : List String → List String
  | [] => []
  | x :: xs => pyInsert x (pySorted xs)

/-! ## `netaddr` IP address model

`netaddr.IPAddress` parse/format, modelled on the standard textual forms:
dotted-quad IPv4 and hex-group IPv6 (with at most one `::`).  An address
is a version (4 or 6) together with its numeric value; `netaddr` compares
same-version addresses by numeric value. -/

structure IPAddr where
  version : Nat
  value : Nat
deriving DecidableEq

/-- Decimal value of a digit list, `none` if empty or non-digit. -/
def decVal : List Char → Option Nat
  | [] => none
  | l =>
    if l.all (fun c => c.isDigit) then
      some (l.foldl (fun acc c => acc * 10 + (c.toNat - 48)) 0)
    else none

/-- Parse one dotted-quad octet (0–255). -/
def parseOctet (l : List Char) : Option Nat :=
  match decVal l with
  | some n => if n ≤ 255 then some n else none
  | none => none

/-- Parse a dotted-quad IPv4 address to its 32-bit value. -/
def parseIPv4 (l : List Char) : Option Nat :=
  match pySplitCh '.' l with
  | [a, b, c, d] =>
    match parseOctet a, parseOctet b, parseOctet c, parseOctet d with
    | some a, some b, some c, some d =>
      some (((a * 256 + b) * 256 + c) * 256 + d)
    | _, _, _, _ => none
  | _ => none

/-- Value of one hex digit. -/
def hexDigitVal (c : Char) : Option Nat :=
  if c.isDigit then some (c.toNat - 48)
  else if 'a' ≤ c ∧ c ≤ 'f' then some (c.toNat - 87)
  else if 'A' ≤ c ∧ c ≤ 'F' then some (c.toNat - 55)
  else none

/-- Parse one IPv6 group: 1–4 hex digits. -/
def parseHexGroup (l : List Char) : Option Nat :=
  if l.length = 0 ∨ 4 < l.length then none
  else
    l.foldl
      (fun acc c =>
        match acc, hexDigitVal c with
        | some a, some v => some (a * 16 + v)
        | _, _ => none)
      (some 0)

/-- Split a character list at the first `::`, if any. -/
def findDoubleColon : List Char → Option (List Char × List Char)
  | ':' :: ':' :: rest => some ([], rest)
  | c :: rest =>
    (findDoubleColon rest).map (fun p => (c :: p.1, p.2))
  | [] => none

/-- Parse every group of a `:`-separated group list. -/
def parseGroupList : List (List Char) → Option (List Nat)
  | [] => some []
  | g :: gs =>
    match parseHexGroup g, parseGroupList gs with
    | some v, some vs => some (v :: vs)
    | _, _ => none

/-- Parse a list of colon-separated hex groups (all must be nonempty). -/
def parseGroups (l : List Char) : Option (List Nat) :=
  parseGroupList (pySplitCh ':' l)

/-- Numeric value of 8 ordered 16-bit groups. -/
def groupsValue (gs : List Nat) : Nat :=
  gs.foldl (fun acc g => acc * 65536 + g) 0

/-- Parse a hex-group IPv6 address to its 128-bit value. -/
def parseIPv6 (l : List Char) : Option Nat :=
  match findDoubleColon l with
  | none =>
    match parseGroups l with
    | some gs => if gs.length = 8 then some (groupsValue gs) else none
    | none => none
  | some (left, right) =>
    if (findDoubleColon right).isSome then none
    else
      let lg := if left.isEmpty then some [] else parseGroups left
      let rg := if right.isEmpty then some [] else parseGroups right
      match lg, rg with
      | some ls, some rs =>
        if ls.length + rs.length ≤ 7 then
          some (groupsValue (ls ++ List.replicate (8 - ls.length - rs.length) 0 ++ rs))
        else none
      | _, _ => none

/-- `netaddr.IPAddress(s)`: strings with a colon are parsed as IPv6,
otherwise as IPv4 (the two syntaxes are disjoint). -/
def parseIP (s : String) : Option IPAddr :=
  if s.data.contains ':' then (parseIPv6 s.data).map (fun v => ⟨6, v⟩)
  else (parseIPv4 s.data).map (fun v => ⟨4, v⟩)

/-- Render a 32-bit value as a dotted quad. -/
def formatIPv4 (v : Nat) : String :=
  toString (v / 16777216 % 256) ++ "." ++ toString (v / 65536 % 256) ++ "."
    ++ toString (v / 256 % 256) ++ "." ++ toString (v % 256)

/-- Lowercase hex rendering of one 16-bit group, no leading zeros. -/
def hexGroupStr (g : Nat) : String := ⟨Nat.toDigits 16 g⟩

/-- Length of the zero run starting at index `i`. -/
def zeroRunAt (gs : List Nat) (i : Nat) : Nat :=
  ((gs.drop i).takeWhile (· = 0)).length

/-- Leftmost longest run (length ≥ 2) of zero groups, as (start, length). -/
def bestZeroRun (gs : List Nat) : Option (Nat × Nat) :=
  (List.range gs.length).foldl
    (fun best i =>
      let n := zeroRunAt gs i
      if 2 ≤ n then
        match best with
        | none => some (i, n)
        | some (_, bn) => if bn < n then some (i, n) else best
      else best)
    none

/-- Render a 128-bit value the way `str(netaddr.IPAddress)` does:
8 lowercase hex groups with the leftmost longest zero run (length ≥ 2)
compressed to `::`. -/
def formatIPv6 (v : Nat) : String :=
  let gs := (List.range 8).map (fun i => v / 65536 ^ (7 - i) % 65536)
  match bestZeroRun gs with
  | none => String.intercalate ":" (gs.map hexGroupStr)
  | some (s, n) =>
    String.intercalate ":" ((gs.take s).map hexGroupStr) ++ "::"
      ++ String.intercalate ":" ((gs.drop (s + n)).map hexGroupStr)

/-- `str(addr)` for a parsed address. -/
def formatIP (a : IPAddr) : String :=
  if a.version = 4 then formatIPv4 a.value else formatIPv6 a.value

/-! ## Error model

`PyErr.f5ModuleError` is the module's own `F5ModuleError`;
`valueError` models an uncaught Python `ValueError` (tuple-unpacking a
`split` that did not produce exactly two parts); `addrFormatError`
models an uncaught `netaddr.core.AddrFormatError`; `typeError` models an
uncaught `TypeError` (iterating over `None`); `deletionFailed` is the
`F5ModuleError("Failed to delete the resource.")` raised after a failed
delete. -/

inductive PyErr
  | valueError
  | addrFormatError
  | f5ModuleError
  | typeError
  | deletionFailed
deriving DecidableEq

/-! ## Canonicalizer (`ModuleParameters` properties) -/

/-- The `addresses` loop: `netaddr.IPAddress(x)` on each entry, wrapping
the parse failure in an `F5ModuleError`; raises at the first bad entry. -/
def checkAddresses : List String → Except PyErr Unit
  | [] => .ok ()
  | x :: rest =>
    if (parseIP x).isSome then checkAddresses rest else .error .f5ModuleError

/-- `ModuleParameters.addresses`: validate every entry parses as an IP
address, then return the sorted entries. -/
def moduleAddresses : Option (List String) → Except PyErr (Option (List String))
  | none => .ok none
  | some xs =>
    match checkAddresses xs with
    | .error e => .error e
    | .ok _ => .ok (some (pySorted xs))

/-- One iteration of the `address_ranges` loop:
`start, stop = address_range.split('-')` (uncaught `ValueError` unless
exactly two parts), strip both sides, `netaddr.IPAddress` on both
(uncaught `AddrFormatError` on a parse failure), raise `F5ModuleError`
when the versions differ, swap when `start > stop`, and render as
`str(start)-str(stop)`. -/
def canonRangeEntry (s : String) : Except PyErr String :=
  match pySplit '-' s with
  | [a, b] =>
    let a := pyStrip a
    let b := pyStrip b
    match parseIP a with
    | none => .error .addrFormatError
    | some start =>
      match parseIP b with
      | none => .error .addrFormatError
      | some stop =>
        if start.version ≠ stop.version then .error .f5ModuleError
        else if stop.value < start.value then
          .ok (formatIP stop ++ "-" ++ formatIP start)
        else .ok (formatIP start ++ "-" ++ formatIP stop)
  | _ => .error .valueError

/-- The `address_ranges` loop over all raw entries, stopping at the
first failure. -/
def canonRangeList : List String → Except PyErr (List String)
  | [] => .ok []
  | x :: rest =>
    match canonRangeEntry x with
    | .error e => .error e
    | .ok v =>
      match canonRangeList rest with
      | .error e => .error e
      | .ok vs => .ok (v :: vs)

/-- `ModuleParameters.address_ranges`: canonicalize every raw range and
sort the results. -/
def moduleAddressRanges : Option (List String) → Except PyErr (Option (List String))
  | none => .ok none
  | some xs =>
    match canonRangeList xs with
    | .error e => .error e
    | .ok vs => .ok (some (pySorted vs))

/-- `Parameters._fqdn_name`: values not starting with `/` are prefixed
with `/partition/`. -/
def fqdnName (partition x : String) : String :=
  match x.data with
  | '/' :: _ => x
  | _ => "/" ++ partition ++ "/" ++ x

/-- `ModuleParameters.address_lists`: qualify each entry, then sort. -/
def moduleAddressLists (partition : String) :
    Option (List String) → Option (List String)
  | none => none
  | some xs => some (pySorted (xs.map (fqdnName partition)))

/-- Characters admitted by the label regex `[A-Z0-9-]` under
`re.IGNORECASE` (the embedding models ASCII input strings). -/
def isLdhChar (c : Char) : Bool :=
  c.isDigit || ('A' ≤ c && c ≤ 'Z') || ('a' ≤ c && c ≤ 'z') || c = '-'

/-- The label pattern without the end-of-string subtlety:
`(?!-)[A-Z0-9-]{1,63}(?<!-)$` — 1 to 63 admitted characters, hyphen at
neither end. -/
def labelCore (l : List Char) : Bool :=
  1 ≤ l.length && l.length ≤ 63 && l.all isLdhChar
    && l.head? != some '-' && l.getLast? != some '-'

/-- `allowed.match(x)`: Python's `$` also matches just before a newline
that ends the string, so a label may additionally carry one trailing
`'\n'`. -/
def labelMatch (l : List Char) : Bool :=
  labelCore l ||
    (match l.getLast? with
     | some c => if c = '\n' then labelCore l.dropLast else false
     | none => false)

/-- `ModuleParameters.is_valid_hostname`: reject when the raw length
exceeds 255, strip every trailing dot, then require each dot-separated
label to match the label regex. -/
def isValidHostname (host : String) : Bool :=
  if 255 < host.length then false
  else (pySplitCh '.' (pyRstripDots host).data).all labelMatch

/-- The `fqdns` loop: raises `F5ModuleError` at the first entry that
fails hostname validation. -/
def checkFqdns : List String → Except PyErr Unit
  | [] => .ok ()
  | x :: rest =>
    if isValidHostname x then checkFqdns rest else .error .f5ModuleError

/-- `ModuleParameters.fqdns`: validate every entry, then sort. -/
def moduleFqdns : Option (List String) → Except PyErr (Option (List String))
  | none => .ok none
  | some xs =>
    match checkFqdns xs with
    | .error e => .error e
    | .ok _ => .ok (some (pySorted xs))

/-- A `geo_locations` input entry: required country, optional region. -/
structure GeoEntry where
  country : String
  region : Option String
deriving DecidableEq

/-- Serialization of one geo entry: `COUNTRY:REGION` when the region is
present and not whitespace-only, else `COUNTRY`.  The country string is
used verbatim. -/
def geoEntryStr (x : GeoEntry) : String :=
  match x.region with
  | some r => if pyStrip r ≠ "" then x.country ++ ":" ++ r else x.country
  | none => x.country

/-- `ModuleParameters.geo_locations`: serialize each entry, then sort. -/
def moduleGeoLocations : Option (List GeoEntry) → Option (List String)
  | none => none
  | some xs => some (pySorted (xs.map geoEntryStr))

/-! ## The country table -/

/-- The static country-name to ISO-code table built in
`ModuleParameters.__init__` (`country_iso_map`).  Note: nothing else in
the module ever reads it. -/
def countryIsoMap : List (String × String) := [
  ("Afghanistan", "AF"),
  ("Albania", "AL"),
  ("Algeria", "DZ"),
  ("American Samoa", "AS"),
  ("Andorra", "AD"),
  ("Angola", "AO"),
  ("Anguilla", "AI"),
  ("Antarctica", "AQ"),
  ("Antigua and Barbuda", "AG"),
  ("Argentina", "AR"),
  ("Armenia", "AM"),
  ("Aruba", "AW"),
  ("Australia", "AU"),
  ("Austria", "AT"),
  ("Azerbaijan", "AZ"),
  ("Bahamas", "BS"),
  ("Bahrain", "BH"),
  ("Bangladesh", "BD"),
  ("Barbados", "BB"),
  ("Belarus", "BY"),
  ("Belgium", "BE"),
  ("Belize", "BZ"),
  ("Benin", "BJ"),
  ("Bermuda", "BM"),
  ("Bhutan", "BT"),
  ("Bolivia", "BO"),
  ("Bosnia and Herzegovina", "BA"),
  ("Botswana", "BW"),
  ("Brazil", "BR"),
  ("Brunei", "BN"),
  ("Bulgaria", "BG"),
  ("Burkina Faso", "BF"),
  ("Burundi", "BI"),
  ("Cameroon", "CM"),
  ("Canada", "CA"),
  ("Cape Verde", "CV"),
  ("Central African Republic", "CF"),
  ("Chile", "CL"),
  ("China", "CN"),
  ("Christmas Island", "CX"),
  ("Cocos Islands", "CC"),
  ("Colombia", "CO"),
  ("Cook Islands", "CK"),
  ("Costa Rica", "CR"),
  ("Cuba", "CU"),
  ("Curacao", "CW"),
  ("Cyprus", "CY"),
  ("Czech Republic", "CZ"),
  ("Democratic Republic of the Congo", "CD"),
  ("Denmark", "DK"),
  ("Djibouti", "DJ"),
  ("Dominica", "DM"),
  ("Dominican Republic", "DO"),
  ("Ecuador", "EC"),
  ("Egypt", "EG"),
  ("Eritrea", "ER"),
  ("Estonia", "EE"),
  ("Ethiopia", "ET"),
  ("Falkland Islands", "FK"),
  ("Faroe Islands", "FO"),
  ("Fiji", "FJ"),
  ("Finland", "FI"),
  ("France", "FR"),
  ("French Polynesia", "PF"),
  ("Gabon", "GA"),
  ("Gambia", "GM"),
  ("Georgia", "GE"),
  ("Germany", "DE"),
  ("Ghana", "GH"),
  ("Gilbraltar", "GI"),
  ("Greece", "GR"),
  ("Greenland", "GL"),
  ("Grenada", "GD"),
  ("Guam", "GU"),
  ("Guatemala", "GT"),
  ("Guernsey", "GG"),
  ("Guinea", "GN"),
  ("Guinea-Bissau", "GW"),
  ("Guyana", "GY"),
  ("Haiti", "HT"),
  ("Honduras", "HN"),
  ("Hong Kong", "HK"),
  ("Hungary", "HU"),
  ("Iceland", "IS"),
  ("India", "IN"),
  ("Indonesia", "ID"),
  ("Iran", "IR"),
  ("Iraq", "IQ"),
  ("Ireland", "IE"),
  ("Isle of Man", "IM"),
  ("Israel", "IL"),
  ("Italy", "IT"),
  ("Ivory Coast", "CI"),
  ("Jamaica", "JM"),
  ("Japan", "JP"),
  ("Jersey", "JE"),
  ("Jordan", "JO"),
  ("Kazakhstan", "KZ"),
  ("Laos", "LA"),
  ("Latvia", "LV"),
  ("Lebanon", "LB"),
  ("Lesotho", "LS"),
  ("Liberia", "LR"),
  ("Libya", "LY"),
  ("Liechtenstein", "LI"),
  ("Lithuania", "LT"),
  ("Luxembourg", "LU"),
  ("Macau", "MO"),
  ("Macedonia", "MK"),
  ("Madagascar", "MG"),
  ("Malawi", "MW"),
  ("Malaysia", "MY"),
  ("Maldives", "MV"),
  ("Mali", "ML"),
  ("Malta", "MT"),
  ("Marshall Islands", "MH"),
  ("Mauritania", "MR"),
  ("Mauritius", "MU"),
  ("Mayotte", "YT"),
  ("Mexico", "MX"),
  ("Micronesia", "FM"),
  ("Moldova", "MD"),
  ("Monaco", "MC"),
  ("Mongolia", "MN"),
  ("Montenegro", "ME"),
  ("Montserrat", "MS"),
  ("Morocco", "MA"),
  ("Mozambique", "MZ"),
  ("Myanmar", "MM"),
  ("Namibia", "NA"),
  ("Nauru", "NR"),
  ("Nepal", "NP"),
  ("Netherlands", "NL"),
  ("Netherlands Antilles", "AN"),
  ("New Caledonia", "NC"),
  ("New Zealand", "NZ"),
  ("Nicaragua", "NI"),
  ("Niger", "NE"),
  ("Nigeria", "NG"),
  ("Niue", "NU"),
  ("North Korea", "KP"),
  ("Northern Mariana Islands", "MP"),
  ("Norway", "NO"),
  ("Oman", "OM"),
  ("Pakistan", "PK"),
  ("Palau", "PW"),
  ("Palestine", "PS"),
  ("Panama", "PA"),
  ("Papua New Guinea", "PG"),
  ("Paraguay", "PY"),
  ("Peru", "PE"),
  ("Philippines", "PH"),
  ("Pitcairn", "PN"),
  ("Poland", "PL"),
  ("Portugal", "PT"),
  ("Puerto Rico", "PR"),
  ("Qatar", "QA"),
  ("Republic of the Congo", "CG"),
  ("Reunion", "RE"),
  ("Romania", "RO"),
  ("Russia", "RU"),
  ("Rwanda", "RW"),
  ("Saint Barthelemy", "BL"),
  ("Saint Helena", "SH"),
  ("Saint Kitts and Nevis", "KN"),
  ("Saint Lucia", "LC"),
  ("Saint Martin", "MF"),
  ("Saint Pierre and Miquelon", "PM"),
  ("Saint Vincent and the Grenadines", "VC"),
  ("Samoa", "WS"),
  ("San Marino", "SM"),
  ("Sao Tome and Principe", "ST"),
  ("Saudi Arabia", "SA"),
  ("Senegal", "SN"),
  ("Serbia", "RS"),
  ("Seychelles", "SC"),
  ("Sierra Leone", "SL"),
  ("Singapore", "SG"),
  ("Sint Maarten", "SX"),
  ("Slovakia", "SK"),
  ("Slovenia", "SI"),
  ("Solomon Islands", "SB"),
  ("Somalia", "SO"),
  ("South Africa", "ZA"),
  ("South Korea", "KR"),
  ("South Sudan", "SS"),
  ("Spain", "ES"),
  ("Sri Lanka", "LK"),
  ("Sudan", "SD"),
  ("Suriname", "SR"),
  ("Svalbard and Jan Mayen", "SJ"),
  ("Swaziland", "SZ"),
  ("Sweden", "SE"),
  ("Switzerland", "CH"),
  ("Syria", "SY"),
  ("Taiwan", "TW"),
  ("Tajikstan", "TJ"),
  ("Tanzania", "TZ"),
  ("Thailand", "TH"),
  ("Togo", "TG"),
  ("Tokelau", "TK"),
  ("Tonga", "TO"),
  ("Trinidad and Tobago", "TT"),
  ("Tunisia", "TN"),
  ("Turkey", "TR"),
  ("Turkmenistan", "TM"),
  ("Turks and Caicos Islands", "TC"),
  ("Tuvalu", "TV"),
  ("U.S. Virgin Islands", "VI"),
  ("Uganda", "UG"),
  ("Ukraine", "UA"),
  ("United Arab Emirates", "AE"),
  ("United Kingdom", "GB"),
  ("United States", "US"),
  ("Uruguay", "UY"),
  ("Uzbekistan", "UZ"),
  ("Vanuatu", "VU"),
  ("Vatican", "VA"),
  ("Venezuela", "VE"),
  ("Vietnam", "VN"),
  ("Wallis and Futuna", "WF"),
  ("Western Sahara", "EH"),
  ("Yemen", "YE"),
  ("Zambia", "ZM"),
  ("Zimbabwe", "ZW")]

/-! ## Device-State Snapshot (`ApiParameters` properties)

The device returns addresses and ranges pre-merged in one array of
`{name}` entries (modelled by their `name` strings) and list references
as `{name, partition}` objects. -/

/-- A `{name, partition}` list-reference object. -/
structure ListRef where
  name : String
  partition : String
deriving DecidableEq

/-- `ApiParameters.addresses`: the entries without a `-`, sorted. -/
def apiAddresses : Option (List String) → Option (List String)
  | none => none
  | some items => some (pySorted (items.filter (fun n => !pyContains n '-')))

/-- `ApiParameters.address_ranges`: the entries containing a `-`,
whitespace-stripped and sorted — nothing else. -/
def apiAddressRanges : Option (List String) → Option (List String)
  | none => none
  | some items =>
    some (pySorted ((items.filter (fun n => pyContains n '-')).map pyStrip))

/-- `ApiParameters.address_lists`: each reference expanded to
`/partition/name`, sorted. -/
def apiAddressLists : Option (List ListRef) → Option (List String)
  | none => none
  | some xs =>
    some (pySorted (xs.map (fun x => "/" ++ x.partition ++ "/" ++ x.name)))

/-- `ApiParameters.fqdns`: the `name` of each entry, sorted. -/
def apiFqdns : Option (List String) → Option (List String)
  | none => none
  | some xs => some (pySorted xs)

/-- `ApiParameters.geo_locations`: the `name` of each entry, sorted. -/
def apiGeoLocations : Option (List String) → Option (List String)
  | none => none
  | some xs => some (pySorted xs)

/-- Raw resource representation read from the device. -/
structure DeviceAttrs where
  addresses : Option (List String)
  address_lists : Option (List ListRef)
  description : Option String
  fqdns : Option (List String)
  geo_locations : Option (List String)
deriving DecidableEq

/-- The canonical live-state view: every `ApiParameters` property. -/
structure HaveParams where
  addresses : Option (List String)
  address_ranges : Option (List String)
  address_lists : Option (List String)
  description : Option String
  fqdns : Option (List String)
  geo_locations : Option (List String)
deriving DecidableEq

/-- Evaluate the `ApiParameters` properties on a read resource. -/
def haveOfAttrs (a : DeviceAttrs) : HaveParams :=
  { addresses := apiAddresses a.addresses
    address_ranges := apiAddressRanges a.addresses
    address_lists := apiAddressLists a.address_lists
    description := a.description
    fqdns := apiFqdns a.fqdns
    geo_locations := apiGeoLocations a.geo_locations }

/-- `ApiParameters()` with no params: every value is `None`. -/
def emptyHave : HaveParams := ⟨none, none, none, none, none, none⟩

/-! ## Desired state (raw user input to `ModuleParameters`) -/

structure RawWant where
  addresses : Option (List String)
  address_ranges : Option (List String)
  address_lists : Option (List String)
  description : Option String
  fqdns : Option (List String)
  geo_locations : Option (List GeoEntry)
  partition : String
deriving DecidableEq

/-! ## Differ (`Difference`) -/

/-- The updatable/returnable field names. -/
inductive FieldName
  | addresses
  | address_ranges
  | address_lists
  | description
  | fqdns
  | geo_locations
deriving DecidableEq

/-- A changed value: a string (description) or a list of strings. -/
inductive ChangeVal
  | str : String → ChangeVal
  | strs : List String → ChangeVal
deriving DecidableEq

/-- The shared body of the four specialized comparators, both sides
present: `sorted(want) != sorted(have)` reports the whole desired list,
otherwise no change. -/
def diffList (wv hv : List String) : Option (List String) :=
  if pySorted wv ≠ pySorted hv then some wv else none

/-- A specialized comparator (`Difference.addresses` etc.): absent
desired value → no change; absent live value → the whole desired value;
otherwise `diffList`. -/
def diffListOpt (w h : Option (List String)) : Option (List String) :=
  match w with
  | none => none
  | some wv =>
    match h with
    | none => some wv
    | some hv => diffList wv hv

/-- `Difference.__default`: direct inequality on the raw canonical
value; an absent desired value is returned as-is, which the caller
treats as "no change". -/
def defaultDiff {α : Type} [DecidableEq α] (a1 a2 : Option α) : Option α :=
  if a1 ≠ a2 then a1 else none

/-- `Difference.compare('addresses')`: evaluating the desired-state
property may raise. -/
def compareAddresses (w : RawWant) (h : HaveParams) :
    Except PyErr (Option (List String)) :=
  match moduleAddresses w.addresses with
  | .error e => .error e
  | .ok wa => .ok (diffListOpt wa h.addresses)

/-- `Difference.compare('address_ranges')`. -/
def compareAddressRanges (w : RawWant) (h : HaveParams) :
    Except PyErr (Option (List String)) :=
  match moduleAddressRanges w.address_ranges with
  | .error e => .error e
  | .ok wa => .ok (diffListOpt wa h.address_ranges)

/-- `Difference.compare('address_lists')` (total). -/
def compareAddressLists (w : RawWant) (h : HaveParams) :
    Option (List String) :=
  diffListOpt (moduleAddressLists w.partition w.address_lists) h.address_lists

/-- `Difference.compare('description')`: falls back to `__default`. -/
def compareDescription (w : RawWant) (h : HaveParams) : Option String :=
  defaultDiff w.description h.description

/-- `Difference.compare('fqdns')`. -/
def compareFqdns (w : RawWant) (h : HaveParams) :
    Except PyErr (Option (List String)) :=
  match moduleFqdns w.fqdns with
  | .error e => .error e
  | .ok wa => .ok (diffListOpt wa h.fqdns)

/-- `Difference.compare('geo_locations')`: falls back to `__default` on
the canonical (already sorted) serializations. -/
def compareGeo (w : RawWant) (h : HaveParams) : Option (List String) :=
  defaultDiff (moduleGeoLocations w.geo_locations) h.geo_locations

/-- A non-`None` comparison result becomes an entry of the `changed`
dict. -/
def addChange (f : FieldName) : Option ChangeVal → List (FieldName × ChangeVal)
  | none => []
  | some v => [(f, v)]

/-- `ModuleManager._update_changed_options`: walk `updatables` in order
(`addresses, address_ranges, address_lists, description, fqdns,
geo_locations`), collect non-`None` comparison results; a desired-state
validation failure propagates out of the walk. -/
def updateChangedOptions (w : RawWant) (h : HaveParams) :
    Except PyErr (List (FieldName × ChangeVal)) :=
  match compareAddresses w h with
  | .error e => .error e
  | .ok c1 =>
    match compareAddressRanges w h with
    | .error e => .error e
    | .ok c2 =>
      let c3 := compareAddressLists w h
      let c4 := compareDescription w h
      match compareFqdns w h with
      | .error e => .error e
      | .ok c5 =>
        let c6 := compareGeo w h
        .ok (addChange .addresses (c1.map .strs)
          ++ addChange .address_ranges (c2.map .strs)
          ++ addChange .address_lists (c3.map .strs)
          ++ addChange .description (c4.map .str)
          ++ addChange .fqdns (c5.map .strs)
          ++ addChange .geo_locations (c6.map .strs))

/-! ## Reconciler (`ModuleManager`)

The Device API Client is abstracted as a `Device` value; each call the
manager makes through it is recorded in a trace.  `deleteWorks` models
whether a `resource.delete()` actually removes the resource (the module
re-checks existence to detect the case where it does not).  Device-side
effects of `create`/`modify` beyond the call itself are not needed by
any claim and are not modelled. -/

structure Device where
  present : Bool
  deleteWorks : Bool
  attrs : DeviceAttrs
deriving DecidableEq

/-- One call through the Device API Client. -/
inductive DevCall
  | existsCall
  | load
  | create
  | modify
  | delete
deriving DecidableEq

deriving instance DecidableEq for Except

/-- Outcome of a reconciliation run: the `changed` result (or the error
that aborted it), the device afterwards, and the calls made. -/
structure RunSt where
  result : Except PyErr Bool
  dev : Device
  trace : List DevCall
deriving DecidableEq

/-- Effect of `resource.delete()` on the device. -/
def deleteDev (d : Device) : Device :=
  if d.deleteWorks then { d with present := false } else d

/-- `ModuleManager.remove_from_device`: load the resource, then delete
it. -/
def removeFromDevice (d : Device) : Device × List DevCall :=
  (deleteDev d, [.load, .delete])

/-- `ModuleManager.remove`: in check mode report a change without
touching the device; otherwise delete, re-check existence, and fail
when the resource is still there. -/
def removeRun (checkMode : Bool) (d : Device) : RunSt :=
  if checkMode then ⟨.ok true, d, []⟩
  else
    let p := removeFromDevice d
    if p.1.present then ⟨.error .deletionFailed, p.1, p.2 ++ [.existsCall]⟩
    else ⟨.ok true, p.1, p.2 ++ [.existsCall]⟩

/-- `ModuleManager.absent`: existence check, then `remove` when
present. -/
def absentRun (checkMode : Bool) (d : Device) : RunSt :=
  if d.present then
    let r := removeRun checkMode d
    ⟨r.result, r.dev, .existsCall :: r.trace⟩
  else ⟨.ok false, d, [.existsCall]⟩

/-- `ModuleManager.present`: existence check; when present, `update`
(read live state, diff, modify — `update_on_device` loads the resource
again before `modify`); when absent, `create` (diff against an empty
live state, then create).  The desired-state properties are evaluated
lazily inside the diff, so a validation failure surfaces there. -/
def presentRun (w : RawWant) (checkMode : Bool) (d : Device) : RunSt :=
  if d.present then
    match updateChangedOptions w (haveOfAttrs d.attrs) with
    | .error e => ⟨.error e, d, [.existsCall, .load]⟩
    | .ok changed =>
      if changed.isEmpty then ⟨.ok false, d, [.existsCall, .load]⟩
      else if checkMode then ⟨.ok true, d, [.existsCall, .load]⟩
      else ⟨.ok true, d, [.existsCall, .load, .load, .modify]⟩
  else
    match updateChangedOptions w emptyHave with
    | .error e => ⟨.error e, d, [.existsCall]⟩
    | .ok _ =>
      if checkMode then ⟨.ok true, d, [.existsCall]⟩
      else ⟨.ok true, d, [.existsCall, .create]⟩

/-! ## Reporting (`Changes.to_return`, `ReportableChanges`,
`ModuleManager.exec_module`)

`UsableChanges` holds the `changed` dict produced by the diff; its
`to_return` serializes it through `getattr` per returnable, swallowing
any exception and returning whatever part of the dict was built so far
(`_filter_params` drops `None` values, but only on the fully successful
path).  `exec_module` then feeds that dict into `ReportableChanges` and
merges its `to_return` into the final result next to the `changed`
flag. -/

/-- A value stored in a params dict: a plain string, a list of strings,
a list of `{name}` dicts (modelled by name), or a list of
`{name, partition}` dicts. -/
inductive ParamVal
  | str : String → ParamVal
  | strs : List String → ParamVal
  | names : List String → ParamVal
  | refs : List ListRef → ParamVal
deriving DecidableEq

/-- `UsableChanges._values` (the `changed` dict of the diff). -/
structure UCVals where
  addresses : Option (List String)
  address_ranges : Option (List String)
  address_lists : Option (List String)
  description : Option String
  fqdns : Option (List String)
  geo_locations : Option (List String)
deriving DecidableEq

/-- Python truthiness of an optional list. -/
def truthy (o : Option (List String)) : Bool :=
  match o with
  | some (_ :: _) => true
  | _ => false

/-- `UsableChanges.addresses`: `None` when both source values are
`None`; otherwise the (possibly empty) merged array of `{name}`
entries, addresses first. -/
def usableAddresses (u : UCVals) : Option ParamVal :=
  if u.addresses = none ∧ u.address_ranges = none then none
  else
    some (.names ((if truthy u.addresses then u.addresses.getD [] else [])
      ++ (if truthy u.address_ranges then u.address_ranges.getD [] else [])))

/-- `x.split('/')[1:]` unpacked into `partition, name`; an uncaught
`ValueError` unless exactly two parts remain. -/
def splitRef (x : String) : Except PyErr ListRef :=
  match (pySplit '/' x).drop 1 with
  | [p, n] => .ok ⟨n, p⟩
  | _ => .error .valueError

/-- The `UsableChanges.address_lists` loop. -/
def splitRefList : List String → Except PyErr (List ListRef)
  | [] => .ok []
  | x :: rest =>
    match splitRef x with
    | .error e => .error e
    | .ok r =>
      match splitRefList rest with
      | .error e => .error e
      | .ok rs => .ok (r :: rs)

/-- `getattr` on `UsableChanges` per returnable field. -/
def usableGetattr (u : UCVals) : FieldName → Except PyErr (Option ParamVal)
  | .addresses => .ok (usableAddresses u)
  | .address_ranges => .ok (u.address_ranges.map .strs)
  | .address_lists =>
    match u.address_lists with
    | none => .ok none
    | some xs =>
      match splitRefList xs with
      | .error e => .error e
      | .ok rs => .ok (some (.refs rs))
  | .description => .ok (u.description.map .str)
  | .fqdns => .ok (u.fqdns.map .strs)
  | .geo_locations => .ok (u.geo_locations.map .strs)

/-- `Parameters.returnables`, in source order. -/
def returnables : List FieldName :=
  [.addresses, .address_ranges, .address_lists, .description, .fqdns,
   .geo_locations]

/-- `Changes.to_return`: build the result dict returnable by returnable
inside a `try`; on any exception return the partially built dict as-is;
on success drop the `None` values (`_filter_params`). -/
def toReturnGo (getattr : FieldName → Except PyErr (Option ParamVal)) :
    List FieldName → List (FieldName × Option ParamVal) →
    List (FieldName × Option ParamVal)
  | [], acc => acc.filter (fun p => p.2.isSome)
  | f :: fs, acc =>
    match getattr f with
    | .error _ => acc
    | .ok v => toReturnGo getattr fs (acc ++ [(f, v)])

def changesToReturn
    (getattr : FieldName → Except PyErr (Option ParamVal)) :
    List (FieldName × Option ParamVal) :=
  toReturnGo getattr returnables []

/-- `ReportableChanges._values` after construction from a params dict. -/
structure RCVals where
  addresses : Option (List String)
  address_ranges : Option (List String)
  address_lists : Option (List ListRef)
  description : Option String
  fqdns : Option (List String)
  geo_locations : Option (List String)
deriving DecidableEq

/-- `AnsibleF5Parameters.update`: store each supplied key; keys not
supplied stay `None`.  The producer (`UsableChanges.to_return`) only
ever supplies the shapes matched here. -/
def rcValsOfParams (ps : List (FieldName × Option ParamVal)) : RCVals :=
  { addresses :=
      match List.lookup .addresses ps with
      | some (some (.names l)) => some l
      | _ => none
    address_ranges :=
      match List.lookup .address_ranges ps with
      | some (some (.strs l)) => some l
      | _ => none
    address_lists :=
      match List.lookup .address_lists ps with
      | some (some (.refs l)) => some l
      | _ => none
    description :=
      match List.lookup .description ps with
      | some (some (.str s)) => some s
      | _ => none
    fqdns :=
      match List.lookup .fqdns ps with
      | some (some (.strs l)) => some l
      | _ => none
    geo_locations :=
      match List.lookup .geo_locations ps with
      | some (some (.strs l)) => some l
      | _ => none }

/-- `getattr` on `ReportableChanges` per returnable field.  The
`addresses`/`address_ranges`/`address_lists` properties iterate their
stored value without a `None` check — an uncaught `TypeError` when the
value was never supplied.  `address_ranges` re-runs the same
normalization as the Canonicalizer on each `-`-containing entry. -/
def reportableGetattr (v : RCVals) : FieldName → Except PyErr (Option ParamVal)
  | .addresses =>
    match v.addresses with
    | none => .error .typeError
    | some xs => .ok (some (.strs (xs.filter (fun n => !pyContains n '-'))))
  | .address_ranges =>
    match v.addresses with
    | none => .error .typeError
    | some xs =>
      match canonRangeList (xs.filter (fun n => pyContains n '-')) with
      | .error e => .error e
      | .ok vs => .ok (some (.strs (pySorted vs)))
  | .address_lists =>
    match v.address_lists with
    | none => .error .typeError
    | some xs =>
      .ok (some (.strs
        (pySorted (xs.map (fun x => "/" ++ x.partition ++ "/" ++ x.name)))))
  | .description => .ok (v.description.map .str)
  | .fqdns => .ok (v.fqdns.map .strs)
  | .geo_locations => .ok (v.geo_locations.map .strs)

/-- The final structured report of `exec_module`. -/
structure FinalReport where
  fields : List (FieldName × Option ParamVal)
  changed : Bool
deriving DecidableEq

/-- The tail of `ModuleManager.exec_module`:
`reportable = ReportableChanges(params=self.changes.to_return())`,
`result.update(**reportable.to_return())`,
`result.update(changed=changed)`. -/
def execModuleReport (u : UCVals) (changed : Bool) : FinalReport :=
  ⟨changesToReturn
      (reportableGetattr (rcValsOfParams (changesToReturn (usableGetattr u)))),
    changed⟩

/-! ## Spec-side hostname rule (for comparison with the code)

Stated from the claim's words, to be compared with `isValidHostname`:
total length at most 255 after stripping a trailing dot, and every
dot-separated label of 1–63 characters, letters/digits/hyphen only,
hyphen at neither end. -/

def specHostnameOk (host : String) : Bool :=
  let stripped : String :=
    if host.data.getLast? = some '.' then ⟨host.data.dropLast⟩ else host
  stripped.length ≤ 255 && (pySplitCh '.' stripped.data).all labelCore

/-- Whether a desired-state field was left unsupplied (`None`). -/
def rawAbsent (w : RawWant) : FieldName → Bool
  | .addresses => w.addresses.isNone
  | .address_ranges => w.address_ranges.isNone
  | .address_lists => w.address_lists.isNone
  | .description => w.description.isNone
  | .fqdns => w.fqdns.isNone
  | .geo_locations => w.geo_locations.isNone

/-- `UsableChanges(params=changed)`: store the changed dict's entries;
everything else stays `None`. -/
def ucValsOfChanges (cs : List (FieldName × ChangeVal)) : UCVals :=
  { addresses :=
      match List.lookup .addresses cs with
      | some (.strs l) => some l
      | _ => none
    address_ranges :=
      match List.lookup .address_ranges cs with
      | some (.strs l) => some l
      | _ => none
    address_lists :=
      match List.lookup .address_lists cs with
      | some (.strs l) => some l
      | _ => none
    description :=
      match List.lookup .description cs with
      | some (.str s) => some s
      | _ => none
    fqdns :=
      match List.lookup .fqdns cs with
      | some (.strs l) => some l
      | _ => none
    geo_locations :=
      match List.lookup .geo_locations cs with
      | some (.strs l) => some l
      | _ => none }

/-! # Lemmas

General facts about the Python string primitives defined above, shared
by the claim theorems. -/

theorem charEqOfToNatEq {x y : Char} (h : x.toNat = y.toNat) : x = y := by
  apply Char.eq_of_val_eq
  apply UInt32.eq_of_toBitVec_eq
  apply BitVec.eq_of_toNat_eq
  exact h

theorem lexLe_total (a b : List Char) : lexLe a b = true ∨ lexLe b a = true := by
  induction a generalizing b with
  | nil => left; simp [lexLe]
  | cons x xs ih =>
    cases b with
    | nil => right; simp [lexLe]
    | cons y ys =>
      rcases Nat.lt_trichotomy x.toNat y.toNat with h | h | h
      · left; simp [lexLe, h]
      · rcases ih ys with h2 | h2
        · left; simp [lexLe, h, h2]
        · right; simp [lexLe, h.symm, h2]
      · right; simp [lexLe, h]

theorem lexLe_trans (a b c : List Char) (hab : lexLe a b = true)
    (hbc : lexLe b c = true) : lexLe a c = true := by
  induction a generalizing b c with
  | nil => simp [lexLe]
  | cons x xs ih =>
    cases b with
    | nil => simp [lexLe] at hab
    | cons y ys =>
      cases c with
      | nil => simp [lexLe] at hbc
      | cons z zs =>
        simp only [lexLe] at hab hbc ⊢
        rcases Nat.lt_trichotomy x.toNat y.toNat with h1 | h1 | h1
        · rcases Nat.lt_trichotomy y.toNat z.toNat with h2 | h2 | h2
          · simp [show x.toNat < z.toNat from by omega]
          · simp [show x.toNat < z.toNat from by omega]
          · simp [show ¬ y.toNat < z.toNat from by omega, h2] at hbc
        · rcases Nat.lt_trichotomy y.toNat z.toNat with h2 | h2 | h2
          · simp [show x.toNat < z.toNat from by omega]
          · have nxy : ¬ x.toNat < y.toNat := by omega
            have nyx : ¬ y.toNat < x.toNat := by omega
            have nyz : ¬ y.toNat < z.toNat := by omega
            have nzy : ¬ z.toNat < y.toNat := by omega
            have nxz : ¬ x.toNat < z.toNat := by omega
            have nzx : ¬ z.toNat < x.toNat := by omega
            rw [if_neg nxy, if_neg nyx] at hab
            rw [if_neg nyz, if_neg nzy] at hbc
            rw [if_neg nxz, if_neg nzx]
            exact ih ys zs hab hbc
          · simp [show ¬ y.toNat < z.toNat from by omega, h2] at hbc
        · simp [show ¬ x.toNat < y.toNat from by omega, h1] at hab

theorem lexLe_antisymm (a b : List Char) (hab : lexLe a b = true)
    (hba : lexLe b a = true) : a = b := by
  induction a generalizing b with
  | nil =>
    cases b with
    | nil => rfl
    | cons y ys => simp [lexLe] at hba
  | cons x xs ih =>
    cases b with
    | nil => simp [lexLe] at hab
    | cons y ys =>
      simp only [lexLe] at hab hba
      rcases Nat.lt_trichotomy x.toNat y.toNat with h | h | h
      · simp [h, show ¬ y.toNat < x.toNat from by omega] at hba
      · have hx : x = y := charEqOfToNatEq h
        subst hx
        simp only [Nat.lt_irrefl, if_false] at hab hba
        exact congrArg (x :: ·) (ih ys hab hba)
      · simp [h, show ¬ x.toNat < y.toNat from by omega] at hab

theorem strLe_total (a b : String) : strLe a b = true ∨ strLe b a = true :=
  lexLe_total a.data b.data

theorem strLe_trans (a b c : String) (hab : strLe a b = true)
    (hbc : strLe b c = true) : strLe a c = true :=
  lexLe_trans a.data b.data c.data hab hbc

theorem strLe_antisymm (a b : String) (hab : strLe a b = true)
    (hba : strLe b a = true) : a = b := by
  cases a; cases b
  exact congrArg String.mk (lexLe_antisymm _ _ hab hba)

theorem pyInsert_perm (x : String) (l : List String) :
    (pyInsert x l).Perm (x :: l) := by
  induction l with
  | nil => exact List.Perm.refl _
  | cons y ys ih =>
    simp only [pyInsert]
    split
    · exact List.Perm.refl _
    · exact (ih.cons y).trans (List.Perm.swap x y ys)

theorem pySorted_perm (l : List String) : (pySorted l).Perm l := by
  induction l with
  | nil => exact List.Perm.refl _
  | cons x xs ih => exact (pyInsert_perm x (pySorted xs)).trans (ih.cons x)

theorem sorted_pyInsert (x : String) (l : List String)
    (h : l.Sorted (fun a b => strLe a b = true)) :
    (pyInsert x l).Sorted (fun a b => strLe a b = true) := by
  induction l with
  | nil => simp [pyInsert]
  | cons y ys ih =>
    rw [List.sorted_cons] at h
    obtain ⟨hy, hys⟩ := h
    simp only [pyInsert]
    split
    · rename_i hxy
      rw [List.sorted_cons]
      refine ⟨?_, by rw [List.sorted_cons]; exact ⟨hy, hys⟩⟩
      intro b hb
      rcases hb with _ | hb
      · exact hxy
      · exact strLe_trans x y b hxy (hy _ (by assumption))
    · rename_i hxy
      have hyx : strLe y x = true := by
        rcases strLe_total x y with h | h
        · exact absurd h hxy
        · exact h
      rw [List.sorted_cons]
      refine ⟨?_, ih hys⟩
      intro b hb
      have := (pyInsert_perm x ys).mem_iff.mp hb
      rcases List.mem_cons.mp this with rfl | hb2
      · exact hyx
      · exact hy b hb2

theorem sorted_pySorted (l : List String) :
    (pySorted l).Sorted (fun a b => strLe a b = true) := by
  induction l with
  | nil => simp [pySorted]
  | cons x xs ih => exact sorted_pyInsert x (pySorted xs) ih

theorem pySorted_eq_of_perm {a b : List String} (h : a.Perm b) :
    pySorted a = pySorted b :=
  @List.eq_of_perm_of_sorted _ _ ⟨strLe_antisymm⟩ _ _
    ((pySorted_perm a).trans (h.trans (pySorted_perm b).symm))
    (sorted_pySorted a) (sorted_pySorted b)

theorem pySorted_eq_iff_perm {a b : List String} :
    pySorted a = pySorted b ↔ a.Perm b := by
  constructor
  · intro h
    exact ((pySorted_perm a).symm.trans (h ▸ pySorted_perm b))
  · exact pySorted_eq_of_perm

theorem pySplitCh_ne_nil (sep : Char) (l : List Char) : pySplitCh sep l ≠ [] := by
  cases l with
  | nil => simp [pySplitCh]
  | cons c rest =>
    simp only [pySplitCh]
    split
    · simp
    · split <;> simp

theorem pySplitCh_no_sep (sep : Char) (l : List Char) (h : sep ∉ l) :
    pySplitCh sep l = [l] := by
  induction l with
  | nil => rfl
  | cons c rest ih =>
    have hc : ¬ c = sep := fun hh => h (hh ▸ List.mem_cons_self c rest)
    have hr : sep ∉ rest := fun hh => h (List.mem_cons_of_mem c hh)
    simp only [pySplitCh, if_neg hc, ih hr]

theorem pySplitCh_append (sep : Char) (a b : List Char) (h : sep ∉ a) :
    pySplitCh sep (a ++ sep :: b) = a :: pySplitCh sep b := by
  induction a with
  | nil => simp [pySplitCh]
  | cons c cs ih =>
    have hc : ¬ c = sep := fun hh => h (hh ▸ List.mem_cons_self c cs)
    have hcs : sep ∉ cs := fun hh => h (List.mem_cons_of_mem c hh)
    simp only [List.cons_append, pySplitCh, if_neg hc]
    rw [show cs.append (sep :: b) = cs ++ sep :: b from rfl, ih hcs]

theorem mem_of_mem_pySplitCh (sep : Char) (l : List Char) (p : List Char)
    (c : Char) (hp : p ∈ pySplitCh sep l) (hc : c ∈ p) : c ∈ l := by
  induction l generalizing p with
  | nil =>
    simp [pySplitCh] at hp
    subst hp
    simp at hc
  | cons d rest ih =>
    simp only [pySplitCh] at hp
    by_cases hd : d = sep
    · rw [if_pos hd] at hp
      rcases List.mem_cons.mp hp with rfl | hp2
      · simp at hc
      · exact List.mem_cons_of_mem d (ih p hp2 hc)
    · rw [if_neg hd] at hp
      obtain ⟨hh, tt, heq⟩ : ∃ hh tt, pySplitCh sep rest = hh :: tt := by
        cases hq : pySplitCh sep rest with
        | nil => exact absurd hq (pySplitCh_ne_nil sep rest)
        | cons hh tt => exact ⟨hh, tt, rfl⟩
      rw [heq] at hp
      rcases List.mem_cons.mp hp with rfl | hp2
      · rcases List.mem_cons.mp hc with rfl | hc2
        · exact List.mem_cons_self c rest
        · exact List.mem_cons_of_mem d
            (ih hh (by rw [heq]; exact List.mem_cons_self hh tt) hc2)
      · exact List.mem_cons_of_mem d
          (ih p (by rw [heq]; exact List.mem_cons_of_mem hh hp2) hc)

/-! ## Shared facts about the range canonicalizer -/

theorem canonRangeEntry_of_split {s a b : String}
    (hsp : pySplit '-' s = [a, b]) :
    canonRangeEntry s =
      (match parseIP (pyStrip a) with
       | none => .error .addrFormatError
       | some start =>
         match parseIP (pyStrip b) with
         | none => .error .addrFormatError
         | some stop =>
           if start.version ≠ stop.version then .error .f5ModuleError
           else if stop.value < start.value then
             .ok (formatIP stop ++ "-" ++ formatIP start)
           else .ok (formatIP start ++ "-" ++ formatIP stop)) := by
  unfold canonRangeEntry
  rw [hsp]

theorem pySplit_dash_pair (a b : String) (ha : ('-') ∉ a.data)
    (hb : ('-') ∉ b.data) : pySplit '-' (a ++ "-" ++ b) = [a, b] := by
  unfold pySplit
  have hdata : (a ++ "-" ++ b).data = a.data ++ '-' :: b.data := by
    rw [String.data_append, String.data_append]
    simp
  rw [hdata, pySplitCh_append '-' _ _ ha, pySplitCh_no_sep '-' _ hb]
  rfl

theorem canonRangeEntry_pair (a b : String) (ha : ('-') ∉ a.data)
    (hb : ('-') ∉ b.data) (x y : IPAddr) (hxa : parseIP (pyStrip a) = some x)
    (hyb : parseIP (pyStrip b) = some y) (hv : x.version = y.version) :
    canonRangeEntry (a ++ "-" ++ b) =
      (if y.value < x.value then .ok (formatIP y ++ "-" ++ formatIP x)
       else .ok (formatIP x ++ "-" ++ formatIP y)) := by
  unfold canonRangeEntry
  rw [pySplit_dash_pair a b ha hb]
  simp only [hxa, hyb]
  rw [if_neg (by simp [hv])]

theorem moduleAddressRanges_singleton (s v : String)
    (h : canonRangeEntry s = .ok v) :
    moduleAddressRanges (some [s]) = .ok (some [v]) := by
  simp [moduleAddressRanges, canonRangeList, h, pySorted, pyInsert]

theorem canonRangeList_error {xs : List String} {e : PyErr}
    (h : canonRangeList xs = .error e) :
    ∃ s ∈ xs, canonRangeEntry s = .error e := by
  induction xs with
  | nil => cases h
  | cons x rest ih =>
    unfold canonRangeList at h
    cases hx : canonRangeEntry x with
    | error e2 =>
      rw [hx] at h
      cases h
      exact ⟨x, List.mem_cons_self x rest, hx⟩
    | ok v =>
      rw [hx] at h
      cases hr : canonRangeList rest with
      | error e2 =>
        rw [hr] at h
        cases h
        obtain ⟨s, hs, hcan⟩ := ih hr
        exact ⟨s, List.mem_cons_of_mem x hs, hcan⟩
      | ok vs =>
        rw [hr] at h
        cases h

/-! ## Shared facts about hostname validation -/

theorem mem_of_getLast?_eq {l : List Char} {a : Char}
    (h : l.getLast? = some a) : a ∈ l := by
  have := List.mem_getLast?_eq_getLast (l := l) (x := a)
  rw [h] at this
  obtain ⟨hne, heq⟩ := this (by simp)
  exact heq ▸ List.getLast_mem hne

theorem labelMatch_eq_labelCore {l : List Char} (h : '\n' ∉ l) :
    labelMatch l = labelCore l := by
  unfold labelMatch
  cases hq : l.getLast? with
  | none => simp
  | some c =>
    have hc : c ∈ l := mem_of_getLast?_eq hq
    have hcn : ¬ c = '\n' := fun hh => h (hh ▸ hc)
    simp [hcn]

theorem mem_of_mem_pyRstripDots {s : String} {c : Char}
    (h : c ∈ (pyRstripDots s).data) : c ∈ s.data := by
  unfold pyRstripDots at h
  rw [show (String.mk ((s.data.reverse.dropWhile (· = '.')).reverse)).data
      = (s.data.reverse.dropWhile (· = '.')).reverse from rfl] at h
  rw [List.mem_reverse] at h
  exact List.mem_reverse.mp (List.Sublist.mem h (List.dropWhile_sublist _))

theorem checkFqdns_error {xs : List String}
    (h : ∃ x ∈ xs, isValidHostname x = false) :
    checkFqdns xs = .error .f5ModuleError := by
  induction xs with
  | nil => obtain ⟨x, hx, _⟩ := h; cases hx
  | cons y ys ih =>
    obtain ⟨x, hx, hbad⟩ := h
    unfold checkFqdns
    by_cases hy : isValidHostname y
    · rw [if_pos hy]
      apply ih
      rcases List.mem_cons.mp hx with rfl | hx2
      · rw [hy] at hbad; cases hbad
      · exact ⟨x, hx2, hbad⟩
    · rw [if_neg hy]

/-! ## Shared facts about the diff walk -/

theorem lookup_addChange_ne (f g : FieldName) (c : Option ChangeVal)
    (h : ¬ f = g) : List.lookup f (addChange g c) = none := by
  cases c with
  | none => rfl
  | some v =>
    simp only [addChange, List.lookup]
    rw [show (f == g) = false from beq_eq_false_iff_ne.mpr h]

theorem lookup_append_none {f : FieldName}
    {l1 l2 : List (FieldName × ChangeVal)} (h1 : List.lookup f l1 = none)
    (h2 : List.lookup f l2 = none) : List.lookup f (l1 ++ l2) = none := by
  induction l1 with
  | nil => exact h2
  | cons p t ih =>
    obtain ⟨k, v⟩ := p
    rw [List.cons_append]
    simp only [List.lookup] at h1 ⊢
    cases hfk : (f == k)
    · rw [hfk] at h1
      exact ih h1
    · rw [hfk] at h1
      cases h1

theorem compareAddresses_absent (w : RawWant) (h : HaveParams)
    (ha : w.addresses = none) : compareAddresses w h = .ok none := by
  simp [compareAddresses, ha, moduleAddresses, diffListOpt]

theorem compareAddressRanges_absent (w : RawWant) (h : HaveParams)
    (ha : w.address_ranges = none) : compareAddressRanges w h = .ok none := by
  simp [compareAddressRanges, ha, moduleAddressRanges, diffListOpt]

theorem compareFqdns_absent (w : RawWant) (h : HaveParams)
    (ha : w.fqdns = none) : compareFqdns w h = .ok none := by
  simp [compareFqdns, ha, moduleFqdns, diffListOpt]

theorem compareAddressLists_absent (w : RawWant) (h : HaveParams)
    (ha : w.address_lists = none) : compareAddressLists w h = none := by
  simp [compareAddressLists, ha, moduleAddressLists, diffListOpt]

theorem defaultDiff_none {α : Type} [DecidableEq α] (a2 : Option α) :
    defaultDiff none a2 = none := by
  unfold defaultDiff
  split <;> rfl

theorem compareDescription_absent (w : RawWant) (h : HaveParams)
    (ha : w.description = none) : compareDescription w h = none := by
  rw [compareDescription, ha, defaultDiff_none]

theorem compareGeo_absent (w : RawWant) (h : HaveParams)
    (ha : w.geo_locations = none) : compareGeo w h = none := by
  rw [compareGeo, ha, show moduleGeoLocations none = none from rfl,
    defaultDiff_none]

theorem updateChangedOptions_ok_shape (w : RawWant) (h : HaveParams)
    (res : List (FieldName × ChangeVal))
    (hok : updateChangedOptions w h = .ok res) :
    ∃ c1 c2 c5, compareAddresses w h = .ok c1 ∧
      compareAddressRanges w h = .ok c2 ∧ compareFqdns w h = .ok c5 ∧
      res = addChange .addresses (c1.map .strs)
        ++ addChange .address_ranges (c2.map .strs)
        ++ addChange .address_lists ((compareAddressLists w h).map .strs)
        ++ addChange .description ((compareDescription w h).map .str)
        ++ addChange .fqdns (c5.map .strs)
        ++ addChange .geo_locations ((compareGeo w h).map .strs) := by
  unfold updateChangedOptions at hok
  cases hc1 : compareAddresses w h with
  | error e => rw [hc1] at hok; cases hok
  | ok c1 =>
    rw [hc1] at hok
    cases hc2 : compareAddressRanges w h with
    | error e => rw [hc2] at hok; cases hok
    | ok c2 =>
      rw [hc2] at hok
      cases hc5 : compareFqdns w h with
      | error e => rw [hc5] at hok; cases hok
      | ok c5 =>
        rw [hc5] at hok
        dsimp only at hok
        cases hok
        exact ⟨c1, c2, c5, rfl, rfl, rfl, rfl⟩

theorem updateChangedOptions_ranges_error (w : RawWant) (h : HaveParams)
    (e : PyErr) (h1 : w.addresses = none)
    (h2 : moduleAddressRanges w.address_ranges = .error e) :
    updateChangedOptions w h = .error e := by
  unfold updateChangedOptions compareAddresses compareAddressRanges
  rw [h1]
  simp [moduleAddresses, h2]

/-! # Claim theorems -/

/-- C1: The claim says a full country name is resolved case-sensitively
to its ISO code, so that country `"US"` and country `"United States"`
canonicalize to the same geo entry `"US"`.  In the code the
`country_iso_map` table is built but never consulted:
`ModuleParameters.geo_locations` emits the country string verbatim, so
`"United States"` canonicalizes to `"United States"`, not `"US"`, even
though the table maps `"United States"` to `"US"`. -/
theorem C1_geo_country_table_unused :
    moduleGeoLocations (some [⟨"United States", none⟩]) = some ["United States"] ∧
    moduleGeoLocations (some [⟨"US", none⟩]) = some ["US"] ∧
    List.lookup "United States" countryIsoMap = some "US" ∧
    moduleGeoLocations (some [⟨"United States", none⟩]) ≠
      moduleGeoLocations (some [⟨"US", none⟩]) := by
  refine ⟨by decide, by decide, by decide, by decide⟩

/-- C2 (counterexample): `ApiParameters.address_ranges` does not
re-validate or re-normalize.  The device entry `"2.2.2.2-1.1.1.1"` is
returned verbatim (not swapped to `"1.1.1.1-2.2.2.2"` as the
Canonicalizer does), and the mixed-version entry `"1.1.1.1-::1"` passes
through without any error. -/
theorem C2_snapshot_ranges_not_revalidated :
    apiAddressRanges (some ["2.2.2.2-1.1.1.1"]) = some ["2.2.2.2-1.1.1.1"] ∧
    apiAddressRanges (some ["1.1.1.1-::1"]) = some ["1.1.1.1-::1"] ∧
    moduleAddressRanges (some ["2.2.2.2-1.1.1.1"])
      = .ok (some ["1.1.1.1-2.2.2.2"]) ∧
    canonRangeEntry "1.1.1.1-::1" = .error .f5ModuleError ∧
    apiAddressRanges (some ["2.2.2.2-1.1.1.1"]) ≠ some ["1.1.1.1-2.2.2.2"] := by
  refine ⟨by decide, by decide, by decide, by decide, by decide⟩

/-- C2 (amended): the Device-State Snapshot's `address_ranges`
extraction never fails and performs no endpoint parsing, version
checking or reordering: it returns exactly the `-`-containing entries,
whitespace-stripped, as a sorted permutation. -/
theorem C2_snapshot_ranges_strip_and_sort (items : List String) :
    ∃ L, apiAddressRanges (some items) = some L ∧
      L.Perm ((items.filter (fun n => pyContains n '-')).map pyStrip) ∧
      L.Sorted (fun a b => strLe a b = true) :=
  ⟨pySorted ((items.filter (fun n => pyContains n '-')).map pyStrip), rfl,
    pySorted_perm _, sorted_pySorted _⟩

/-- C3: for an update that changes only the description, the diff
produces exactly the description change, but the final report is
`{changed: true}` with no description in it: `ReportableChanges.addresses`
raises a `TypeError` iterating over the absent `addresses` value, and
`Changes.to_return` swallows it, returning an empty dict (so the
operation does not crash, but the changed field's new value, promised by
the module's RETURN documentation, is silently dropped). -/
theorem C3_description_change_missing_from_report :
    updateChangedOptions
        ⟨none, none, none, some "My new description", none, none, "Common"⟩
        { emptyHave with description := some "old" }
      = .ok [(.description, .str "My new description")] ∧
    execModuleReport (ucValsOfChanges [(.description, .str "My new description")])
        true
      = ⟨[], true⟩ := by
  exact ⟨by decide, by decide⟩

/-- C4 (counterexample): the Differ does not compare for set-equality.
Desired `["1.1.1.1", "1.1.1.1"]` and live `["1.1.1.1"]` contain the same
set of elements (equal after `dedup`), yet `Difference.addresses`
reports the whole desired collection as a change, because
`sorted(want) != sorted(have)` is multiset comparison. -/
theorem C4_same_set_duplicates_report_change :
    compareAddresses
        ⟨some ["1.1.1.1", "1.1.1.1"], none, none, none, none, none, "Common"⟩
        { emptyHave with addresses := some ["1.1.1.1"] }
      = .ok (some ["1.1.1.1", "1.1.1.1"]) ∧
    (["1.1.1.1", "1.1.1.1"] : List String).dedup
      = (["1.1.1.1"] : List String).dedup := by
  exact ⟨by decide, by decide⟩

/-- C4 (amended): with both sides present, the specialized comparators'
shared body compares the collections as multisets: no change is reported
iff the desired and live collections are permutations of each other
(order-insensitive, duplicate-sensitive), and any reported change is the
entire desired collection. -/
theorem C4_diff_multiset_equality (wv hv : List String) :
    (diffList wv hv = none ↔ wv.Perm hv) ∧
    (∀ v, diffList wv hv = some v → v = wv) := by
  unfold diffList
  by_cases h : pySorted wv = pySorted hv
  · rw [if_neg (by simp [h])]
    refine ⟨⟨(fun _ => pySorted_eq_iff_perm.mp h), (fun _ => rfl)⟩,
      (fun v hv2 => by cases hv2)⟩
  · rw [if_pos (by simp [h])]
    refine ⟨⟨(fun hc => by cases hc),
      (fun hp => absurd (pySorted_eq_of_perm hp) h)⟩, ?_⟩
    intro v hv2
    cases hv2
    rfl

/-- C4 (witness): same elements in different order yield no change; a
strict subset yields the entire desired collection. -/
theorem C4_diff_multiset_equality_witness :
    diffList ["1.1.1.1", "2.2.2.2"] ["2.2.2.2", "1.1.1.1"] = none ∧
    diffList ["1.1.1.1"] ["1.1.1.1", "2.2.2.2"] = some ["1.1.1.1"] := by
  constructor
  · exact (C4_diff_multiset_equality _ _).1.mpr (by decide)
  · decide

/-- C5 (counterexample): the claim's rules (length at most 255 after
stripping one trailing dot; every dot-separated label 1–63 LDH characters
with no hyphen at either end) reject `"a.."` — after stripping the
trailing dot the label list still contains an empty label — but the
code's `is_valid_hostname` strips ALL trailing dots and accepts it. -/
theorem C5_hostname_trailing_dots_counterexample :
    isValidHostname "a.." = true ∧ specHostnameOk "a.." = false := by
  refine ⟨by decide, by decide⟩

set_option maxRecDepth 4096 in
/-- C5 (amended): `is_valid_hostname` accepts a newline-free entry iff
its total length BEFORE any stripping is at most 255 and, after
stripping ALL trailing dots, every dot-separated label satisfies the
label rule (1–63 letters/digits/hyphens, hyphen at neither end); any
entry failing validation makes `fqdns` canonicalization fail with the
module's validation error.  `"-bad.example.com"` fails,
`"good.example.com"` passes, and a 256-character label fails. -/
theorem C5_hostname_validation_amended :
    (∀ host : String, '\n' ∉ host.data →
      (isValidHostname host = true ↔
        (host.length ≤ 255 ∧
          ∀ lab ∈ pySplitCh '.' (pyRstripDots host).data,
            labelCore lab = true))) ∧
    (∀ xs : List String, (∃ x ∈ xs, isValidHostname x = false) →
      moduleFqdns (some xs) = .error .f5ModuleError) ∧
    isValidHostname "-bad.example.com" = false ∧
    isValidHostname "good.example.com" = true ∧
    isValidHostname ⟨List.replicate 256 'a'⟩ = false := by
  refine ⟨?_, ?_, by decide, by decide, by decide⟩
  · intro host hnl
    unfold isValidHostname
    by_cases h255 : 255 < host.length
    · rw [if_pos h255]
      constructor
      · intro hc; cases hc
      · rintro ⟨hl, _⟩; omega
    · rw [if_neg h255]
      have hfix : ∀ lab ∈ pySplitCh '.' (pyRstripDots host).data,
          labelMatch lab = labelCore lab := by
        intro lab hlab
        apply labelMatch_eq_labelCore
        intro hmem
        exact hnl (mem_of_mem_pyRstripDots
          (mem_of_mem_pySplitCh '.' _ lab '\n' hlab hmem))
      rw [List.all_eq_true]
      constructor
      · intro hall
        refine ⟨by omega, ?_⟩
        intro lab hlab
        rw [← hfix lab hlab]
        exact hall lab hlab
      · rintro ⟨_, hall⟩
        intro lab hlab
        rw [hfix lab hlab]
        exact hall lab hlab
  · intro xs h
    simp only [moduleFqdns]
    rw [checkFqdns_error h]

/-- C5 (witness): the amended rule at concrete hostnames. -/
theorem C5_hostname_validation_witness :
    isValidHostname "good.example.com" = true ∧
    moduleFqdns (some ["-bad.example.com"]) = .error .f5ModuleError := by
  constructor
  · exact (C5_hostname_validation_amended.1 "good.example.com" (by decide)).mpr
      (by decide)
  · exact C5_hostname_validation_amended.2.1 ["-bad.example.com"]
      ⟨"-bad.example.com", List.mem_cons_self _ _, by decide⟩

/-- C6: desired-state range canonicalization is order-independent: for
any two same-version parseable endpoint strings `a` and `b` (free of the
`-` separator, as address strings are), canonicalizing `"a-b"` and
`"b-a"` yields the same result, and that result is `start-stop` with
`start <= stop` by IP-numeric comparison. -/
theorem C6_range_order_independent (a b : String) (ha : ('-') ∉ a.data)
    (hb : ('-') ∉ b.data) (x y : IPAddr)
    (hxa : parseIP (pyStrip a) = some x) (hyb : parseIP (pyStrip b) = some y)
    (hv : x.version = y.version) :
    moduleAddressRanges (some [a ++ "-" ++ b])
      = moduleAddressRanges (some [b ++ "-" ++ a]) ∧
    ∃ lo hi : IPAddr, lo.value ≤ hi.value ∧
      moduleAddressRanges (some [a ++ "-" ++ b])
        = .ok (some [formatIP lo ++ "-" ++ formatIP hi]) := by
  have e1 := canonRangeEntry_pair a b ha hb x y hxa hyb hv
  have e2 := canonRangeEntry_pair b a hb ha y x hyb hxa hv.symm
  rcases Nat.lt_trichotomy x.value y.value with h | h | h
  · rw [if_neg (by omega)] at e1
    rw [if_pos h] at e2
    rw [moduleAddressRanges_singleton _ _ e1, moduleAddressRanges_singleton _ _ e2]
    exact ⟨rfl, x, y, by omega, rfl⟩
  · have hxy : x = y := by cases x; cases y; simp_all
    subst hxy
    rw [if_neg (by omega)] at e1
    rw [if_neg (by omega)] at e2
    rw [moduleAddressRanges_singleton _ _ e1, moduleAddressRanges_singleton _ _ e2]
    exact ⟨rfl, x, x, le_refl _, rfl⟩
  · rw [if_pos h] at e1
    rw [if_neg (by omega)] at e2
    rw [moduleAddressRanges_singleton _ _ e1, moduleAddressRanges_singleton _ _ e2]
    exact ⟨rfl, y, x, by omega, rfl⟩

/-- C6 (witness): `"2.2.2.2-1.1.1.1"` and `"1.1.1.1-2.2.2.2"` both
canonicalize to `"1.1.1.1-2.2.2.2"`. -/
theorem C6_range_order_independent_witness :
    moduleAddressRanges (some ["2.2.2.2" ++ "-" ++ "1.1.1.1"])
      = moduleAddressRanges (some ["1.1.1.1" ++ "-" ++ "2.2.2.2"]) ∧
    moduleAddressRanges (some ["2.2.2.2" ++ "-" ++ "1.1.1.1"])
      = .ok (some ["1.1.1.1-2.2.2.2"]) := by
  constructor
  · exact (C6_range_order_independent "2.2.2.2" "1.1.1.1" (by decide) (by decide)
      ⟨4, 33686018⟩ ⟨4, 16843009⟩ (by decide) (by decide) rfl).1
  · decide

/-- C7 (counterexample): the claim says a mixed-version range fails
"before any device call is made".  Running `state=present` with desired
`address_ranges=["1.1.1.1-::1"]` against a non-existent resource does
raise the module's validation error, but only during the diff — after
the existence check has already been made: the trace of device calls at
the failure is `[existsCall]`, not `[]`. -/
theorem C7_validation_not_before_device_calls :
    presentRun ⟨none, some ["1.1.1.1-::1"], none, none, none, none, "Common"⟩
        false ⟨false, true, ⟨none, none, none, none, none⟩⟩
      = ⟨.error .f5ModuleError, ⟨false, true, ⟨none, none, none, none, none⟩⟩,
          [.existsCall]⟩ ∧
    [DevCall.existsCall] ≠ ([] : List DevCall) := by
  refine ⟨by decide, by decide⟩

/-- C7 (amended): a desired state whose `address_ranges` canonicalization
fails (in particular with the mixed-version `F5ModuleError`) makes the
`present` run abort with exactly that error during the diff — after the
existence check (and after reading live state, when the resource exists)
but before any mutating device call (`create`/`modify` never appear in
the trace). -/
theorem C7_mixed_version_fails_during_diff (w : RawWant) (cm : Bool)
    (d : Device) (e : PyErr) (h1 : w.addresses = none)
    (h2 : moduleAddressRanges w.address_ranges = .error e) :
    presentRun w cm d =
      ⟨.error e, d,
        if d.present = true then [.existsCall, .load] else [.existsCall]⟩ ∧
    (presentRun w cm d).trace ≠ [] := by
  have heq : presentRun w cm d =
      ⟨.error e, d,
        if d.present = true then [.existsCall, .load] else [.existsCall]⟩ := by
    by_cases hp : d.present = true <;>
      simp [presentRun, hp, updateChangedOptions_ranges_error _ _ _ h1 h2]
  refine ⟨heq, ?_⟩
  rw [heq]
  by_cases hp : d.present = true <;> simp [hp]

/-- C7 (witness): the amended behavior at a concrete mixed-version input
on an existing resource. -/
theorem C7_mixed_version_fails_during_diff_witness :
    presentRun ⟨none, some ["1.1.1.1-::1"], none, none, none, none, "Common"⟩
        false ⟨true, true, ⟨none, none, none, none, none⟩⟩
      = ⟨.error .f5ModuleError, ⟨true, true, ⟨none, none, none, none, none⟩⟩,
          [.existsCall, .load]⟩ := by
  have h := (C7_mixed_version_fails_during_diff
    ⟨none, some ["1.1.1.1-::1"], none, none, none, none, "Common"⟩ false
    ⟨true, true, ⟨none, none, none, none, none⟩⟩ .f5ModuleError rfl
    (by decide)).1
  simpa using h

/-- C8: for every updatable field whose desired value is absent
(`None`), the diff walk produces a change-set with no entry for that
field, so the field is never pushed to the device; and absent is
distinct from an explicitly supplied empty collection — an explicit
empty `addresses` against a non-empty live value produces the change
`[]`. -/
theorem C8_absent_fields_never_diffed :
    (∀ (w : RawWant) (h : HaveParams) (f : FieldName)
        (res : List (FieldName × ChangeVal)),
      rawAbsent w f = true → updateChangedOptions w h = .ok res →
      List.lookup f res = none) ∧
    updateChangedOptions ⟨some [], none, none, none, none, none, "Common"⟩
        { emptyHave with addresses := some ["1.1.1.1"] }
      = .ok [(.addresses, .strs [])] := by
  refine ⟨?_, by decide⟩
  intro w h f res habs hok
  obtain ⟨c1, c2, c5, hc1, hc2, hc5, hres⟩ :=
    updateChangedOptions_ok_shape w h res hok
  subst hres
  cases f with
  | addresses =>
    have ha : w.addresses = none := Option.isNone_iff_eq_none.mp habs
    rw [compareAddresses_absent w h ha] at hc1
    cases hc1
    refine lookup_append_none (lookup_append_none (lookup_append_none
      (lookup_append_none (lookup_append_none rfl ?_) ?_) ?_) ?_) ?_ <;>
      exact lookup_addChange_ne _ _ _ (by decide)
  | address_ranges =>
    have ha : w.address_ranges = none := Option.isNone_iff_eq_none.mp habs
    rw [compareAddressRanges_absent w h ha] at hc2
    cases hc2
    refine lookup_append_none (lookup_append_none (lookup_append_none
      (lookup_append_none (lookup_append_none
        (lookup_addChange_ne _ _ _ (by decide)) rfl)
        (lookup_addChange_ne _ _ _ (by decide)))
        (lookup_addChange_ne _ _ _ (by decide)))
        (lookup_addChange_ne _ _ _ (by decide)))
        (lookup_addChange_ne _ _ _ (by decide))
  | address_lists =>
    have ha : w.address_lists = none := Option.isNone_iff_eq_none.mp habs
    rw [compareAddressLists_absent w h ha]
    refine lookup_append_none (lookup_append_none (lookup_append_none
      (lookup_append_none (lookup_append_none
        (lookup_addChange_ne _ _ _ (by decide))
        (lookup_addChange_ne _ _ _ (by decide))) rfl)
        (lookup_addChange_ne _ _ _ (by decide)))
        (lookup_addChange_ne _ _ _ (by decide)))
        (lookup_addChange_ne _ _ _ (by decide))
  | description =>
    have ha : w.description = none := Option.isNone_iff_eq_none.mp habs
    rw [compareDescription_absent w h ha]
    refine lookup_append_none (lookup_append_none (lookup_append_none
      (lookup_append_none (lookup_append_none
        (lookup_addChange_ne _ _ _ (by decide))
        (lookup_addChange_ne _ _ _ (by decide)))
        (lookup_addChange_ne _ _ _ (by decide))) rfl)
        (lookup_addChange_ne _ _ _ (by decide)))
        (lookup_addChange_ne _ _ _ (by decide))
  | fqdns =>
    have ha : w.fqdns = none := Option.isNone_iff_eq_none.mp habs
    rw [compareFqdns_absent w h ha] at hc5
    cases hc5
    refine lookup_append_none (lookup_append_none (lookup_append_none
      (lookup_append_none (lookup_append_none
        (lookup_addChange_ne _ _ _ (by decide))
        (lookup_addChange_ne _ _ _ (by decide)))
        (lookup_addChange_ne _ _ _ (by decide)))
        (lookup_addChange_ne _ _ _ (by decide))) rfl)
        (lookup_addChange_ne _ _ _ (by decide))
  | geo_locations =>
    have ha : w.geo_locations = none := Option.isNone_iff_eq_none.mp habs
    rw [compareGeo_absent w h ha]
    refine lookup_append_none (lookup_append_none (lookup_append_none
      (lookup_append_none (lookup_append_none
        (lookup_addChange_ne _ _ _ (by decide))
        (lookup_addChange_ne _ _ _ (by decide)))
        (lookup_addChange_ne _ _ _ (by decide)))
        (lookup_addChange_ne _ _ _ (by decide)))
        (lookup_addChange_ne _ _ _ (by decide))) rfl

/-- C8 (witness): with a fully absent desired state against an empty
live state the diff is empty, and in particular `description` is not in
it. -/
theorem C8_absent_fields_never_diffed_witness :
    rawAbsent ⟨none, none, none, none, none, none, "Common"⟩ .description
      = true ∧
    List.lookup FieldName.description ([] : List (FieldName × ChangeVal))
      = none := by
  constructor
  · decide
  · exact C8_absent_fields_never_diffed.1
      ⟨none, none, none, none, none, none, "Common"⟩ emptyHave
      .description [] (by decide) (by decide)

/-- C9: with target `absent`, an existing resource (not in check mode)
is loaded and deleted, then the existence check is re-run; if the
resource is still present the run fails with the deletion-failed error,
otherwise it reports `changed = true`. -/
theorem C9_delete_then_recheck (d : Device) (hp : d.present = true) :
    absentRun false d =
      ⟨if (deleteDev d).present = true then .error .deletionFailed
        else .ok true,
        deleteDev d, [.existsCall, .load, .delete, .existsCall]⟩ := by
  by_cases hdp : (deleteDev d).present = true <;>
    simp [absentRun, removeRun, removeFromDevice, hp, hdp]

/-- C9 (witness): the post-condition at a concrete device whose delete
succeeds. -/
theorem C9_delete_then_recheck_witness :
    absentRun false ⟨true, true, ⟨none, none, none, none, none⟩⟩ =
      ⟨if (deleteDev ⟨true, true, ⟨none, none, none, none, none⟩⟩).present = true
          then .error .deletionFailed else .ok true,
        deleteDev ⟨true, true, ⟨none, none, none, none, none⟩⟩,
        [.existsCall, .load, .delete, .existsCall]⟩ :=
  C9_delete_then_recheck _ rfl

/-- C10: desired-state `address_ranges` canonicalization raises the
module's own `F5ModuleError` only for the mixed-version case; an entry
that does not split on `-` into exactly two parts raises an unhandled
`ValueError`; an entry whose endpoints do not parse as IP addresses
raises an unhandled `AddrFormatError`; and every error that escapes the
property originates, unwrapped, from one of its entries. -/
theorem C10_range_errors_unwrapped :
    (∀ s : String, (pySplit '-' s).length ≠ 2 →
      canonRangeEntry s = .error .valueError) ∧
    (∀ (s a b : String), pySplit '-' s = [a, b] →
      (parseIP (pyStrip a) = none ∨ parseIP (pyStrip b) = none) →
      canonRangeEntry s = .error .addrFormatError) ∧
    (∀ s : String, canonRangeEntry s = .error .f5ModuleError →
      ∃ a b x y, pySplit '-' s = [a, b] ∧ parseIP (pyStrip a) = some x ∧
        parseIP (pyStrip b) = some y ∧ x.version ≠ y.version) ∧
    (∀ (xs : List String) (e : PyErr),
      moduleAddressRanges (some xs) = .error e →
      ∃ s ∈ xs, canonRangeEntry s = .error e) := by
  refine ⟨?_, ?_, ?_, ?_⟩
  · intro s hlen
    rcases hsp : pySplit '-' s with _ | ⟨a, _ | ⟨b, _ | ⟨c, t⟩⟩⟩
    · simp [canonRangeEntry, hsp]
    · simp [canonRangeEntry, hsp]
    · exact absurd (by rw [hsp]; rfl) hlen
    · simp [canonRangeEntry, hsp]
  · intro s a b hsp hpar
    rw [canonRangeEntry_of_split hsp]
    cases hpa : parseIP (pyStrip a) with
    | none => rfl
    | some x =>
      rcases hpar with h | h
      · rw [hpa] at h; cases h
      · simp [h]
  · intro s herr
    rcases hsp : pySplit '-' s with _ | ⟨a, _ | ⟨b, _ | ⟨c, t⟩⟩⟩
    · simp [canonRangeEntry, hsp] at herr
    · simp [canonRangeEntry, hsp] at herr
    · rw [canonRangeEntry_of_split hsp] at herr
      cases hpa : parseIP (pyStrip a) with
      | none => rw [hpa] at herr; cases herr
      | some x =>
        rw [hpa] at herr
        cases hpb : parseIP (pyStrip b) with
        | none => rw [hpb] at herr; cases herr
        | some y =>
          rw [hpb] at herr
          by_cases hvv : x.version ≠ y.version
          · exact ⟨a, b, x, y, rfl, hpa, hpb, hvv⟩
          · dsimp only at herr
            rw [if_neg hvv] at herr
            split at herr <;> cases herr
    · simp [canonRangeEntry, hsp] at herr
  · intro xs e h
    simp only [moduleAddressRanges] at h
    cases hc : canonRangeList xs with
    | error e2 =>
      rw [hc] at h
      cases h
      exact canonRangeList_error hc
    | ok vs => rw [hc] at h; cases h

/-- C10 (witness): the three error families at concrete inputs. -/
theorem C10_range_errors_unwrapped_witness :
    canonRangeEntry "1.1.1.1" = .error .valueError ∧
    canonRangeEntry "a-b" = .error .addrFormatError ∧
    (∃ a b x y, pySplit '-' "1.1.1.1-::1" = [a, b] ∧
      parseIP (pyStrip a) = some x ∧ parseIP (pyStrip b) = some y ∧
      x.version ≠ y.version) := by
  refine ⟨C10_range_errors_unwrapped.1 "1.1.1.1" (by decide),
    C10_range_errors_unwrapped.2.1 "a-b" "a" "b" (by decide)
      (Or.inl (by decide)),
    C10_range_errors_unwrapped.2.2.1 "1.1.1.1-::1" (by decide)⟩
